import Mathlib

/-!
Shallow embedding of `chart.py` (sprint-burndown-chart-generator).

Conventions of the embedding:
* Python `float` values are modelled as exact rationals (`ℚ`).
* Python `datetime` values are modelled as an integer count of seconds
  (`ℤ`); `datetime.date()` is the floor-division of that count by 86400,
  and `timedelta.days` is the floor-division of a difference by 86400,
  matching Python's floor semantics.
* Python `None`/missing-key is `Option.none`; Python truthiness of an
  optional string ("falsy" when absent or empty) is `pyTruthy`.
* Strings are Lean `String`s; `.lower()` is modelled for the ASCII range.
* Library calls (`float(str)`, `re.search`, `datetime.fromisoformat`,
  `str.replace`) are modelled by the executable functions below, each
  restricted to the value shapes the program actually feeds them.
-/

namespace Chart

/-- Truthiness of an optional string, as Python evaluates
`x` in a boolean context: `None` and `""` are falsy. -/
def pyTruthy (s : Option String) : Bool :=
  match s with
  | none => false
  | some t => t ≠ ""

/-- ASCII lower-casing of one character (model of `str.lower` per char). -/
def lowerChar (c : Char) : Char :=
  if 65 ≤ c.toNat ∧ c.toNat ≤ 90 then Char.ofNat (c.toNat + 32) else c

/-- Model of Python `str.lower()` (ASCII range). -/
def pyLower (s : String) : String :=
  ⟨s.data.map lowerChar⟩

/-- Does `hay` start with `needle` (on character lists)? -/
def startsWithL : List Char → List Char → Bool
  | [], _ => true
  | _ :: _, [] => false
  | n :: ns, h :: hs => n = h && startsWithL ns hs

/-- Model of Python's substring test `needle in hay` (on character lists). -/
def hasSubL (needle : List Char) : List Char → Bool
  | [] => needle = []
  | c :: rest => startsWithL needle (c :: rest) || hasSubL needle rest

/-- Case-insensitive substring test: model of
`needle.lower() in hay.lower()`. -/
def strHasSubCI (needle hay : String) : Bool :=
  hasSubL (pyLower needle).data (pyLower hay).data

/-- Decimal digit test. -/
def isDigitCh (c : Char) : Bool :=
  48 ≤ c.toNat && c.toNat ≤ 57

/-- Value of a list of decimal digit characters. -/
def digitsToNat (cs : List Char) : ℕ :=
  cs.foldl (fun a c => 10 * a + (c.toNat - 48)) 0

/-- Value of a fractional digit string (the part after the decimal point). -/
def fracVal (cs : List Char) : ℚ :=
  (digitsToNat cs : ℚ) / (10 : ℚ) ^ cs.length

/-- Space test for stripping, as Python `float()` ignores surrounding
whitespace. -/
def isSpaceCh (c : Char) : Bool :=
  c = ' ' || c = '\t' || c = '\n' || c = '\r'

/-- Unsigned part of a Python float literal: `digits`, `digits.`,
`.digits` or `digits.digits`. -/
def parseUnsigned (cs : List Char) : Option ℚ :=
  let intPart := cs.takeWhile isDigitCh
  let rest := cs.dropWhile isDigitCh
  match rest with
  | [] => if intPart.isEmpty then none else some (digitsToNat intPart : ℚ)
  | '.' :: rest2 =>
    let frac := rest2.takeWhile isDigitCh
    let rest3 := rest2.dropWhile isDigitCh
    if ¬ rest3.isEmpty then none
    else if intPart.isEmpty && frac.isEmpty then none
    else some ((digitsToNat intPart : ℚ) + fracVal frac)
  | _ => none

/-- Model of Python `float(s)` on plain decimal literals (optional sign,
digits, optional fractional part, surrounding whitespace); exponent,
`inf` and `nan` forms are outside the shapes this program feeds it.
`none` models a raised `ValueError`. -/
def parseFloatPy (s : String) : Option ℚ :=
  let cs := (s.data.dropWhile isSpaceCh).reverse.dropWhile isSpaceCh |>.reverse
  match cs with
  | '+' :: rest => parseUnsigned rest
  | '-' :: rest => (parseUnsigned rest).map Neg.neg
  | cs => parseUnsigned cs

/-- Leftmost match of the regex `\d+(\.\d+)?` starting at a digit-initial
position: maximal digit run, then an optional `.`-plus-digits run. -/
def matchNumberAt (cs : List Char) : ℚ :=
  let intPart := cs.takeWhile isDigitCh
  let rest := cs.dropWhile isDigitCh
  match rest with
  | '.' :: rest2 =>
    let frac := rest2.takeWhile isDigitCh
    if frac.isEmpty then (digitsToNat intPart : ℚ)
    else (digitsToNat intPart : ℚ) + fracVal frac
  | _ => (digitsToNat intPart : ℚ)

/-- Model of `re.search(r"(\d+(\.\d+)?)", name)` followed by
`float(m.group(1))`: the leftmost decimal number in the string, if any. -/
def labelNumber (s : String) : Option ℚ :=
  go s.data
where
  go : List Char → Option ℚ
  | [] => none
  | c :: rest => if isDigitCh c then some (matchNumberAt (c :: rest)) else go rest

/-! ## Raw GraphQL data model

Mirrors the nested response shape the query in `_build_query` produces:
a content union (Issue | PullRequest) plus heterogeneous field values. -/

/-- The `field { name }` sub-object carried by a field value. -/
structure FieldRef where
  name : Option String
deriving DecidableEq, Repr

/-- One node of `fieldValues.nodes`: a single-select value (`name`), a
text value (`text`) or a number value (`number`), tagged with its field. -/
structure FieldValue where
  field : Option FieldRef
  name : Option String
  text : Option String
  number : Option ℚ
deriving DecidableEq, Repr

/-- One node of `labels.nodes`. -/
structure Label where
  name : Option String
deriving DecidableEq, Repr

/-- The content union of an item: Issue and PullRequest both carry
`title/state/createdAt/closedAt`; only Issue carries `labels`. -/
structure Content where
  title : Option String
  state : Option String
  createdAt : Option String
  closedAt : Option String
  labels : Option (List Label)
deriving DecidableEq, Repr

/-- One node of `items.nodes`. -/
structure RawItem where
  content : Option Content
  fieldValues : List FieldValue
deriving DecidableEq, Repr

/-- The `projectV2` object. -/
structure ProjectObj where
  title : Option String
  items : Option (List RawItem)
deriving DecidableEq, Repr

/-- The `data` object of the GraphQL response, holding the owner path. -/
structure RawRoot where
  organization : Option ProjectObj
  repository : Option ProjectObj
deriving DecidableEq, Repr

/-- One normalized work item, as built in `process_project_data`. -/
structure NormalizedItem where
  title : String
  story_points : ℚ
  created_at : Option ℤ
  closed_at : Option ℤ
  state : Option String
deriving DecidableEq, Repr

/-- The snapshot dictionary returned by `process_project_data`. -/
structure Snapshot where
  project_name : Option String
  items : List NormalizedItem
  total_points : ℚ
  sprint_start : ℤ
  sprint_end : ℤ
deriving DecidableEq, Repr

/-- The dictionary returned by `calculate_burndown_data`. -/
structure BurndownData where
  dates : List ℤ
  remaining : List ℚ
  ideal : List ℚ
  total_points : ℚ
deriving DecidableEq, Repr

/-! ## Story-point extraction (`_extract_story_points`) -/

/-- The field name of a field value, as the code reads it:
`(v.get("field", {}) or {}).get("name", "")`. -/
def fvFieldName (v : FieldValue) : String :=
  ((v.field.getD ⟨none⟩).name).getD ""

/-- The named-field pass of `_extract_story_points`: scan the field
values for one whose field name case-insensitively equals the configured
points field; return its number, else its text parsed as a float when
that parse succeeds, else keep scanning. -/
def extractNamedLoop (pfName : String) : List FieldValue → Option ℚ
  | [] => none
  | v :: rest =>
    let fname := fvFieldName v
    if fname ≠ "" ∧ pyLower fname = pyLower pfName then
      match v.number with
      | some n => some n
      | none =>
        if pyTruthy v.text then
          match parseFloatPy (v.text.getD "") with
          | some x => some x
          | none => extractNamedLoop pfName rest
        else extractNamedLoop pfName rest
    else extractNamedLoop pfName rest

/-- The generic pass of `_extract_story_points`: first field value with a
number, or with text that parses as a float. -/
def extractAnyLoop : List FieldValue → Option ℚ
  | [] => none
  | v :: rest =>
    match v.number with
    | some n => some n
    | none =>
      if pyTruthy v.text then
        match parseFloatPy (v.text.getD "") with
        | some x => some x
        | none => extractAnyLoop rest
      else extractAnyLoop rest

/-- The label names of an item's content, as the code reads them:
`(item.get("content", {}) or {}).get("labels", {}).get("nodes", [])`. -/
def itemLabelNames (item : RawItem) : List String :=
  (((item.content.getD ⟨none, none, none, none, none⟩).labels).getD []).map
    (fun l => l.name.getD "")

/-- The label pass of `_extract_story_points`: first label whose name
contains a decimal number. -/
def extractLabelLoop : List String → Option ℚ
  | [] => none
  | name :: rest =>
    match labelNumber name with
    | some x => some x
    | none => extractLabelLoop rest

/-- Model of `_extract_story_points(item, points_field_name)`: named-field pass
(when a points field is configured), then generic field pass, then label
pass, then the default `1.0`. -/
def _extract_story_points (item : RawItem) (points_field_name : Option String) : ℚ :=
  let fv := item.fieldValues
  match (if pyTruthy points_field_name
         then extractNamedLoop (points_field_name.getD "") fv
         else none) with
  | some x => x
  | none =>
    match extractAnyLoop fv with
    | some x => x
    | none =>
      match extractLabelLoop (itemLabelNames item) with
      | some x => x
      | none => 1

/-! ## Sprint membership (`_get_item_sprint` and the filter in
`process_project_data`) -/

/-- The field-value loop of `_get_item_sprint`: for each field value
whose field name case-insensitively equals the configured sprint field,
return its single-select `name` when truthy, else its `text` when
truthy, else keep scanning. -/
def sprintFieldLoop (sfName : Option String) : List FieldValue → Option String
  | [] => none
  | v :: rest =>
    let fname := fvFieldName v
    if pyTruthy sfName ∧ fname ≠ "" ∧ pyLower fname = pyLower (sfName.getD "") then
      match v.name with
      | some s =>
        if s ≠ "" then some s
        else match v.text with
          | some t => if t ≠ "" then some t else sprintFieldLoop sfName rest
          | none => sprintFieldLoop sfName rest
      | none =>
        match v.text with
        | some t => if t ≠ "" then some t else sprintFieldLoop sfName rest
        | none => sprintFieldLoop sfName rest
    else sprintFieldLoop sfName rest

/-- Model of `_get_item_sprint(item, sprint_field_name)`: a string (the sprint
tag from a matching field value) or, falling back, the list of the
item's label names. Python returns `str` or `list`; the sum type keeps
the `isinstance` distinction made by the caller. -/
def _get_item_sprint (item : RawItem) (sprint_field_name : Option String) :
    Sum String (List String) :=
  match sprintFieldLoop sprint_field_name item.fieldValues with
  | some s => Sum.inl s
  | none => Sum.inr (itemLabelNames item)

/-- The sprint filter applied to one item inside `process_project_data`:
field-based matching when `sprint_field` is truthy (substring test,
case-insensitive), label-based equality otherwise, including everything
when no `sprint_label` is configured. -/
def itemInclude (sprint_label sprint_field : Option String) (item : RawItem) : Bool :=
  let item_sprint := _get_item_sprint item sprint_field
  if pyTruthy sprint_field then
    match item_sprint with
    | Sum.inl tag =>
      pyTruthy sprint_label && strHasSubCI (sprint_label.getD "") tag
    | Sum.inr _ => false
  else
    match item_sprint with
    | Sum.inl _ => false
    | Sum.inr labels =>
      if pyTruthy sprint_label then
        labels.any (fun lbl => pyLower (sprint_label.getD "") = pyLower lbl)
      else true

/-! ## Timestamp parsing -/

/-- Is `y` a leap year (proleptic Gregorian)? -/
def isLeap (y : ℤ) : Bool :=
  (y % 4 == 0 && y % 100 != 0) || y % 400 == 0

/-- Days in month `m` of year `y`. -/
def daysInMonth (y : ℤ) (m : ℕ) : ℕ :=
  if m = 2 then (if isLeap y then 29 else 28)
  else if m = 4 ∨ m = 6 ∨ m = 9 ∨ m = 11 then 30
  else 31

/-- Days since 1970-01-01 of the civil date `y-m-d`
(days-from-civil algorithm, proleptic Gregorian). -/
def daysFromCivil (year : ℤ) (m d : ℕ) : ℤ :=
  let y : ℤ := if m ≤ 2 then year - 1 else year
  let era : ℤ := Int.fdiv y 400
  let yoe : ℤ := y - era * 400
  let mp : ℤ := if 2 < m then (m : ℤ) - 3 else (m : ℤ) + 9
  let doy : ℤ := Int.fdiv (153 * mp + 2) 5 + (d : ℤ) - 1
  let doe : ℤ := yoe * 365 + Int.fdiv yoe 4 - Int.fdiv yoe 100 + doy
  era * 146097 + doe - 719468

/-- Numeric value of a run of digit characters, failing on a non-digit. -/
def digitsNat (cs : List Char) : Option ℕ :=
  if cs.all isDigitCh then some (digitsToNat cs) else none

/-- Seconds-since-epoch of validated date/time components. -/
def civilSeconds (y : ℤ) (mo d h mi s : ℕ) : Option ℤ :=
  if 1 ≤ mo ∧ mo ≤ 12 ∧ 1 ≤ d ∧ d ≤ daysInMonth y mo ∧ h < 24 ∧ mi < 60 ∧ s < 60
  then some (daysFromCivil y mo d * 86400 + (h : ℤ) * 3600 + (mi : ℤ) * 60 + (s : ℤ))
  else none

/-- Model of `datetime.fromisoformat`, restricted to the shapes this
program feeds it: `YYYY-MM-DD`, `YYYY-MM-DDTHH:MM:SS` and
`YYYY-MM-DDTHH:MM:SS+00:00` (after the code's `Z` replacement). Any
other string fails (`none` models the raised `ValueError`); component
ranges are validated. The result is seconds since the epoch. -/
def fromisoformat (s : String) : Option ℤ :=
  match s.data with
  | [y1, y2, y3, y4, '-', m1, m2, '-', d1, d2] =>
    (digitsNat [y1, y2, y3, y4]).bind fun y =>
      (digitsNat [m1, m2]).bind fun mo =>
        (digitsNat [d1, d2]).bind fun d =>
          civilSeconds (y : ℤ) mo d 0 0 0
  | [y1, y2, y3, y4, '-', m1, m2, '-', d1, d2, 'T',
     h1, h2, ':', mi1, mi2, ':', s1, s2] =>
    (digitsNat [y1, y2, y3, y4]).bind fun y =>
      (digitsNat [m1, m2]).bind fun mo =>
        (digitsNat [d1, d2]).bind fun d =>
          (digitsNat [h1, h2]).bind fun h =>
            (digitsNat [mi1, mi2]).bind fun mi =>
              (digitsNat [s1, s2]).bind fun sec =>
                civilSeconds (y : ℤ) mo d h mi sec
  | [y1, y2, y3, y4, '-', m1, m2, '-', d1, d2, 'T',
     h1, h2, ':', mi1, mi2, ':', s1, s2, '+', '0', '0', ':', '0', '0'] =>
    (digitsNat [y1, y2, y3, y4]).bind fun y =>
      (digitsNat [m1, m2]).bind fun mo =>
        (digitsNat [d1, d2]).bind fun d =>
          (digitsNat [h1, h2]).bind fun h =>
            (digitsNat [mi1, mi2]).bind fun mi =>
              (digitsNat [s1, s2]).bind fun sec =>
                civilSeconds (y : ℤ) mo d h mi sec
  | _ => none

/-- If `s` starts with `needle`, the remainder of `s` after it. -/
def stripSub? : List Char → List Char → Option (List Char)
  | [], s => some s
  | _ :: _, [] => none
  | n :: ns, c :: cs => if n = c then stripSub? ns cs else none

/-- The scanning loop of `str.replace`, fuelled by the input length so
that the recursion is structural (each step consumes at least one
character, so the fuel never runs out on the initial call). -/
def pyReplaceGo (repl : List Char) (n : Char) (ns : List Char) :
    ℕ → List Char → List Char
  | 0, s => s
  | _ + 1, [] => []
  | fuel + 1, c :: rest =>
    match stripSub? (n :: ns) (c :: rest) with
    | some rem => repl ++ pyReplaceGo repl n ns fuel rem
    | none => c :: pyReplaceGo repl n ns fuel rest

/-- Model of Python `str.replace(needle, repl)` on character lists:
every non-overlapping occurrence, scanning left to right. -/
def pyReplace (needle repl : List Char) (s : List Char) : List Char :=
  match needle with
  | [] => s
  | n :: ns => pyReplaceGo repl n ns s.length s

/-- Model of `str.replace` at the `String` level. -/
def pyReplaceS (needle repl s : String) : String :=
  ⟨pyReplace needle.data repl.data s.data⟩

/-- Parse one timestamp as the code does:
`datetime.fromisoformat(x.replace("Z", "+00:00"))`. -/
def parseTs (s : String) : Option ℤ :=
  fromisoformat (pyReplaceS "Z" "+00:00" s)

/-- The `try/except` block of `process_project_data` around the two
timestamp conversions: each truthy raw string is parsed; the first
raised `ValueError` makes both results `None`. -/
def parseStamps (created closed : Option String) : Option ℤ × Option ℤ :=
  match (if pyTruthy created then (parseTs (created.getD "")).map some else some none) with
  | none => (none, none)
  | some created_dt =>
    match (if pyTruthy closed then (parseTs (closed.getD "")).map some else some none) with
    | none => (none, none)
    | some closed_dt => (created_dt, closed_dt)

/-! ## Item normalization (`process_project_data`) -/

/-- The body of the item loop in `process_project_data`: skip items
without content, apply the sprint filter, extract story points, parse
the two timestamps, and build the normalized entry. `none` models
`continue`. -/
def processItem (sprint_label sprint_field points_field : Option String)
    (it : RawItem) : Option NormalizedItem :=
  match it.content with
  | none => none
  | some content =>
    if itemInclude sprint_label sprint_field it then
      let sp := _extract_story_points it points_field
      let stamps := parseStamps content.createdAt content.closedAt
      some { title := content.title.getD ""
             story_points := sp
             created_at := stamps.1
             closed_at := stamps.2
             state := content.state }
    else none

/-- Configuration keys that `process_project_data` reads. -/
structure Config where
  project_type : Option String
  sprint_label : Option String
  sprint_field : Option String
  points_field : Option String
deriving DecidableEq, Repr

/-- Model of `process_project_data(raw, sprint_start, sprint_end)`: pick the
project object from the organization or repository path, filter and
normalize the items, and return the snapshot. `none` models the early
`return None` branches (no valid data, or project not found). -/
def process_project_data (cfg : Config) (raw : Option RawRoot)
    (sprint_start sprint_end : ℤ) : Option Snapshot :=
  match raw with
  | none => none
  | some root =>
    let project_type := cfg.project_type.getD "organization"
    let project :=
      if project_type = "organization" then root.organization else root.repository
    match project with
    | none => none
    | some p =>
      let items := p.items.getD []
      let filtered := items.filterMap
        (processItem cfg.sprint_label cfg.sprint_field cfg.points_field)
      some { project_name := p.title
             items := filtered
             total_points := (filtered.map (·.story_points)).sum
             sprint_start := sprint_start
             sprint_end := sprint_end }

/-! ## Burndown calculation (`calculate_burndown_data`) -/

/-- Model of `datetime.date()` on a seconds timestamp: days since the epoch
(floor division, matching Python dates for tz-naive/UTC values). -/
def dateOf (t : ℤ) : ℤ :=
  Int.fdiv t 86400

/-- The `done` accumulator of one loop iteration:
`sum(i["story_points"] for i in items if i["closed_at"] and
i["closed_at"].date() <= current.date())`. -/
def doneAt (items : List NormalizedItem) (current : ℤ) : ℚ :=
  ((items.filter (fun i =>
      i.closed_at.isSome &&
      decide (dateOf (i.closed_at.getD 0) ≤ dateOf current))).map
    (·.story_points)).sum

/-- The `while current <= sprint_end` loop of `calculate_burndown_data`,
producing the three parallel lists. -/
def burnLoop (items : List NormalizedItem) (total daily : ℚ)
    (sprint_start sprint_end current : ℤ) : List ℤ × List ℚ × List ℚ :=
  if current ≤ sprint_end then
    let done := doneAt items current
    let rem := max 0 (total - done)
    let elapsed : ℤ := Int.fdiv (current - sprint_start) 86400
    let ideal_rem := max 0 (total - daily * (elapsed : ℚ))
    let next := burnLoop items total daily sprint_start sprint_end (current + 86400)
    (current :: next.1, rem :: next.2.1, ideal_rem :: next.2.2)
  else ([], [], [])
termination_by (sprint_end + 86400 - current).toNat
decreasing_by omega

/-- The quantity `days = max(1, (sprint_end - sprint_start).days)`. -/
def sprintDays (sprint_start sprint_end : ℤ) : ℤ :=
  max 1 (Int.fdiv (sprint_end - sprint_start) 86400)

/-- Model of `calculate_burndown_data(pdata, planned_points)`. -/
def calculate_burndown_data (pdata : Snapshot) (planned_points : Option ℚ) :
    BurndownData :=
  let total_points := planned_points.getD pdata.total_points
  let days := sprintDays pdata.sprint_start pdata.sprint_end
  let daily := total_points / (days : ℚ)
  let r := burnLoop pdata.items total_points daily
    pdata.sprint_start pdata.sprint_end pdata.sprint_start
  { dates := r.1, remaining := r.2.1, ideal := r.2.2, total_points := total_points }

/-! ## Chart output paths (`create_plotly_chart`) -/

/-- The HTML output path of `create_plotly_chart`:
`save_path.replace(".png", ".html")`. -/
def plotlyHtmlPath (save_path : String) : String :=
  pyReplaceS ".png" ".html" save_path

/-- The static-image output path of `create_plotly_chart`:
`fig.write_image(save_path)` uses the configured path unchanged. -/
def plotlyImagePath (save_path : String) : String :=
  save_path

/-! ## The abort check of `run`

`run` raises only when `process_project_data` returned a falsy value;
the snapshot dictionary it otherwise returns is non-empty, hence always
truthy in Python, so the embedded check is `Option.isNone`. -/

/-- The condition under which `run` raises
"No project items matched the sprint filter or project response
unexpected." -/
def runAbortsAfterProcessing (cfg : Config) (raw : Option RawRoot)
    (sprint_start sprint_end : ℤ) : Bool :=
  (process_project_data cfg raw sprint_start sprint_end).isNone

/-! ## Spec-side definitions

These restate parts of the specification in its own words, to be
compared with the definitions translated from the code. -/

/-- Spec wording of the named-field pass of story-point resolution:
the first field value whose field name case-insensitively equals the
configured points field and which yields a number (its numeric value,
else its text parsed as a float). -/
def namedFieldPoints (pf : String) (fv : List FieldValue) : Option ℚ :=
  fv.findSome? (fun v =>
    if fvFieldName v ≠ "" ∧ pyLower (fvFieldName v) = pyLower pf then
      match v.number with
      | some n => some n
      | none => if pyTruthy v.text then parseFloatPy (v.text.getD "") else none
    else none)

/-- Spec wording of the generic pass: the first field value in order
with a numeric value or float-parsable text. -/
def anyFieldPoints (fv : List FieldValue) : Option ℚ :=
  fv.findSome? (fun v =>
    match v.number with
    | some n => some n
    | none => if pyTruthy v.text then parseFloatPy (v.text.getD "") else none)

/-- Spec wording of the label pass: the first decimal number found in a
label name. -/
def labelPoints (names : List String) : Option ℚ :=
  names.findSome? labelNumber

/-- Spec wording of the whole story-point resolution order: named field,
then any field, then labels, then the default `1.0`. -/
def storyPointsResolution (item : RawItem) (pf : Option String) : ℚ :=
  (((if pyTruthy pf then namedFieldPoints (pf.getD "") item.fieldValues else none).orElse
      (fun _ => anyFieldPoints item.fieldValues)).orElse
      (fun _ => labelPoints (itemLabelNames item))).getD 1

/-- Spec wording of the sprint tag: the first field value whose field
name case-insensitively equals the sprint field and carries a truthy
single-select `name` (preferred) or `text` value. -/
def sprintTagSpec (sf : String) (fv : List FieldValue) : Option String :=
  fv.findSome? (fun v =>
    if fvFieldName v ≠ "" ∧ pyLower (fvFieldName v) = pyLower sf then
      if pyTruthy v.name then v.name
      else if pyTruthy v.text then v.text
      else none
    else none)

/-- One field value yields a number when it has a numeric value, or
truthy text that parses as a float. -/
def fvYieldsNumber (v : FieldValue) : Prop :=
  v.number.isSome = true ∨
    (pyTruthy v.text = true ∧ (parseFloatPy (v.text.getD "")).isSome = true)

/-- No field value or label of the item yields a number. -/
def itemYieldsNoNumber (item : RawItem) : Prop :=
  (∀ v ∈ item.fieldValues, ¬ fvYieldsNumber v) ∧
    (∀ name ∈ itemLabelNames item, labelNumber name = none)

/-- Every numeric field value and every float-parsable text of the item
is nonnegative (absent values count as 0). -/
def fieldNumbersNonneg (item : RawItem) : Prop :=
  ∀ v ∈ item.fieldValues,
    0 ≤ v.number.getD 0 ∧ 0 ≤ (parseFloatPy (v.text.getD "")).getD 0

instance (v : FieldValue) : Decidable (fvYieldsNumber v) := by
  unfold fvYieldsNumber
  infer_instance

instance (item : RawItem) : Decidable (itemYieldsNoNumber item) := by
  unfold itemYieldsNoNumber
  infer_instance

instance (item : RawItem) : Decidable (fieldNumbersNonneg item) := by
  unfold fieldNumbersNonneg
  infer_instance

/-- Spec wording of "the same path with the extension replaced (by
`.html`)": drop everything after the last dot and append `.html`
(append to the whole path when it has no dot). -/
def extensionReplacedHtml (p : String) : String :=
  let r := p.data.reverse
  if p.data.contains '.' then
    ⟨((r.dropWhile (fun c => c ≠ '.')).drop 1).reverse ++ ".html".data⟩
  else ⟨p.data ++ ".html".data⟩

/-! ## Concrete fixtures used by the claims -/

/-- Scenario A snapshot: sprint 2024-01-01 .. 2024-01-05 (timestamps in
seconds relative to the sprint start), total 10, one 4-point item closed
on the third day. -/
def snapA : Snapshot :=
  { project_name := some "P"
    items := [{ title := "it"
                story_points := 4
                created_at := none
                closed_at := some (2 * 86400)
                state := some "CLOSED" }]
    total_points := 10
    sprint_start := 0
    sprint_end := 4 * 86400 }

/-- Scenario D item: an unrelated numeric field first, then the
configured "Story Points" field. -/
def itemD : RawItem :=
  { content := some { title := some "t", state := some "OPEN", createdAt := none,
                      closedAt := none, labels := some [] }
    fieldValues :=
      [{ field := some ⟨some "Priority"⟩, name := none, text := none, number := some 5 },
       { field := some ⟨some "Story Points"⟩, name := none, text := none, number := some 3 }] }

/-- An item whose only numeric field value is negative. -/
def itemNeg : RawItem :=
  { content := some { title := some "t", state := some "OPEN", createdAt := none,
                      closedAt := none, labels := some [] }
    fieldValues :=
      [{ field := some ⟨some "Estimate"⟩, name := none, text := none, number := some (-5) }] }

/-- An item with no field values and no numeric label. -/
def itemPlain : RawItem :=
  { content := some { title := some "t", state := some "OPEN", createdAt := none,
                      closedAt := none, labels := some [⟨some "bug"⟩] }
    fieldValues := [] }

/-- Scenario B item labeled ["Sprint 3", "bug"]. -/
def itemB1 : RawItem :=
  { content := some { title := some "b1", state := some "OPEN", createdAt := none,
                      closedAt := none, labels := some [⟨some "Sprint 3"⟩, ⟨some "bug"⟩] }
    fieldValues := [] }

/-- Scenario B item labeled ["Sprint 2"]. -/
def itemB2 : RawItem :=
  { content := some { title := some "b2", state := some "OPEN", createdAt := none,
                      closedAt := none, labels := some [⟨some "Sprint 2"⟩] }
    fieldValues := [] }

/-- An item carrying a "Sprint" single-select field with value
"Sprint 3". -/
def itemS5 : RawItem :=
  { content := some { title := some "s5", state := some "OPEN", createdAt := none,
                      closedAt := none, labels := some [] }
    fieldValues :=
      [{ field := some ⟨some "Sprint"⟩, name := some "Sprint 3", text := none, number := none }] }

/-- Content with a malformed `closedAt` timestamp. -/
def contentBad : Content :=
  { title := some "bad", state := some "CLOSED"
    createdAt := some "2024-01-02T10:00:00Z"
    closedAt := some "garbage"
    labels := some [⟨some "Sprint 3"⟩] }

/-- An item with a malformed `closedAt` timestamp. -/
def itemBadTs : RawItem :=
  { content := some contentBad
    fieldValues := [] }

/-- Configuration for scenario B (label-based filtering). -/
def cfgB : Config :=
  { project_type := none
    sprint_label := some "Sprint 3"
    sprint_field := none
    points_field := none }

/-- A found project whose single item does not match the sprint filter
of `cfgB`. -/
def rawB : RawRoot :=
  { organization := some { title := some "Proj", items := some [itemB2] }
    repository := none }

/-! ## Helper lemmas about the burndown loop -/

/-- Floor division `Int.fdiv` by the positive constant 86400 agrees with Euclidean
division, which `omega` and `norm_num` can handle. -/
theorem fdiv_86400 (a : ℤ) : Int.fdiv a 86400 = a / 86400 :=
  Int.fdiv_eq_ediv a (by norm_num)

/-- One unfolding of `burnLoop` when the loop guard holds. -/
theorem burnLoop_pos (items : List NormalizedItem) (total daily : ℚ)
    (s e c : ℤ) (h : c ≤ e) :
    burnLoop items total daily s e c =
      (c :: (burnLoop items total daily s e (c + 86400)).1,
       max 0 (total - doneAt items c) ::
         (burnLoop items total daily s e (c + 86400)).2.1,
       max 0 (total - daily * ((Int.fdiv (c - s) 86400 : ℤ) : ℚ)) ::
         (burnLoop items total daily s e (c + 86400)).2.2) := by
  rw [burnLoop]; simp [h]

/-- One unfolding of `burnLoop` when the loop guard fails. -/
theorem burnLoop_neg (items : List NormalizedItem) (total daily : ℚ)
    (s e c : ℤ) (h : ¬ c ≤ e) :
    burnLoop items total daily s e c = ([], [], []) := by
  rw [burnLoop]; simp [h]

/-- The remaining list is the pointwise image of the date list under
`d ↦ max 0 (total - done(d))`. -/
theorem burnLoop_remaining_map (items : List NormalizedItem) (total daily : ℚ)
    (s e c : ℤ) :
    (burnLoop items total daily s e c).2.1 =
      (burnLoop items total daily s e c).1.map
        (fun d => max 0 (total - doneAt items d)) := by
  by_cases h : c ≤ e
  · rw [burnLoop_pos items total daily s e c h]
    simp only [List.map_cons]
    exact congrArg _ (burnLoop_remaining_map items total daily s e (c + 86400))
  · rw [burnLoop_neg items total daily s e c h]; simp
termination_by (e + 86400 - c).toNat
decreasing_by omega

/-- The ideal list is the pointwise image of the date list under
`d ↦ max 0 (total - daily * elapsed(d))`. -/
theorem burnLoop_ideal_map (items : List NormalizedItem) (total daily : ℚ)
    (s e c : ℤ) :
    (burnLoop items total daily s e c).2.2 =
      (burnLoop items total daily s e c).1.map
        (fun d => max 0 (total - daily * ((Int.fdiv (d - s) 86400 : ℤ) : ℚ))) := by
  by_cases h : c ≤ e
  · rw [burnLoop_pos items total daily s e c h]
    simp only [List.map_cons]
    exact congrArg _ (burnLoop_ideal_map items total daily s e (c + 86400))
  · rw [burnLoop_neg items total daily s e c h]; simp
termination_by (e + 86400 - c).toNat
decreasing_by omega

/-- Closed form of the date list: daily steps from `c` while the guard
holds, one entry per whole elapsed day up to `e`, inclusive. -/
theorem burnLoop_dates_formula (items : List NormalizedItem) (total daily : ℚ)
    (s e c : ℤ) (h : c ≤ e) :
    (burnLoop items total daily s e c).1 =
      (List.range (((e - c) / 86400).toNat + 1)).map
        (fun k : ℕ => c + 86400 * (k : ℤ)) := by
  rw [burnLoop_pos items total daily s e c h]
  by_cases h2 : c + 86400 ≤ e
  · have hn : ((e - c) / 86400).toNat = ((e - (c + 86400)) / 86400).toNat + 1 := by
      omega
    rw [hn, List.range_succ_eq_map, List.map_cons, List.map_map,
      burnLoop_dates_formula items total daily s e (c + 86400) h2]
    simp only [Nat.cast_zero, mul_zero, add_zero, List.cons.injEq, true_and]
    refine List.map_congr_left (fun a _ => ?_)
    simp only [Function.comp_apply, Nat.succ_eq_add_one]
    push_cast
    ring
  · rw [burnLoop_neg items total daily s e (c + 86400) h2]
    have h0 : ((e - c) / 86400).toNat = 0 := by omega
    rw [h0]
    rw [show List.range 1 = [0] from rfl]
    simp
termination_by (e + 86400 - c).toNat
decreasing_by omega

/-- The date list is non-decreasing (consecutive dates step forward). -/
theorem burnLoop_dates_chain (items : List NormalizedItem) (total daily : ℚ)
    (s e c : ℤ) :
    List.Chain' (fun a b : ℤ => a ≤ b) (burnLoop items total daily s e c).1 := by
  by_cases h : c ≤ e
  · rw [burnLoop_pos items total daily s e c h]
    rw [List.chain'_cons']
    refine ⟨fun y hy => ?_, burnLoop_dates_chain items total daily s e (c + 86400)⟩
    by_cases h2 : c + 86400 ≤ e
    · rw [burnLoop_pos items total daily s e (c + 86400) h2] at hy
      simp only [List.head?_cons, Option.mem_def, Option.some.injEq] at hy
      omega
    · rw [burnLoop_neg items total daily s e (c + 86400) h2] at hy
      simp at hy
  · rw [burnLoop_neg items total daily s e c h]
    simp
termination_by (e + 86400 - c).toNat
decreasing_by omega

/-- Rewriting `doneAt` as a sum of guarded contributions over all items. -/
theorem doneAt_eq_sum (items : List NormalizedItem) (current : ℤ) :
    doneAt items current =
      (items.map (fun i =>
        if i.closed_at.isSome ∧ dateOf (i.closed_at.getD 0) ≤ dateOf current
        then i.story_points else 0)).sum := by
  induction items with
  | nil => rfl
  | cons i rest ih =>
    by_cases h : i.closed_at.isSome ∧ dateOf (i.closed_at.getD 0) ≤ dateOf current
    · simp only [doneAt, List.filter_cons] at ih ⊢
      rw [if_pos (by simpa using h)]
      simp only [List.map_cons, List.sum_cons, if_pos h]
      exact congrArg _ ih
    · simp only [doneAt, List.filter_cons] at ih ⊢
      rw [if_neg (by simpa using h)]
      simp only [List.map_cons, List.sum_cons, if_neg h, zero_add]
      exact ih

/-- The function `date()` is monotone on timestamps. -/
theorem dateOf_mono {d d' : ℤ} (h : d ≤ d') : dateOf d ≤ dateOf d' := by
  simp only [dateOf, fdiv_86400]
  omega

/-- With nonnegative story points, `done` is non-decreasing in the day. -/
theorem doneAt_mono (items : List NormalizedItem)
    (hpts : ∀ i ∈ items, 0 ≤ i.story_points) {d d' : ℤ} (h : d ≤ d') :
    doneAt items d ≤ doneAt items d' := by
  rw [doneAt_eq_sum, doneAt_eq_sum]
  refine List.sum_le_sum (fun i hi => ?_)
  by_cases hc : i.closed_at.isSome ∧ dateOf (i.closed_at.getD 0) ≤ dateOf d
  · rw [if_pos hc, if_pos ⟨hc.1, le_trans hc.2 (dateOf_mono h)⟩]
  · rw [if_neg hc]
    by_cases hc' : i.closed_at.isSome ∧ dateOf (i.closed_at.getD 0) ≤ dateOf d'
    · rw [if_pos hc']; exact hpts i hi
    · rw [if_neg hc']

/-! ## Claim C1 -/

/-- Claim C1 fails as stated: on scenario A the remaining sequence is
not `[10, 10, 10, 6, 6]`, because the item closed on 2024-01-03 already
counts as done on that same day. -/
theorem C1_counterexample :
    (calculate_burndown_data snapA none).remaining ≠ [10, 10, 10, 6, 6] := by
  have h : (calculate_burndown_data snapA none).remaining = [10, 10, 6, 6, 6] := by
    norm_num [calculate_burndown_data, snapA, burnLoop_pos, burnLoop_neg, doneAt,
      dateOf, sprintDays, fdiv_86400, List.filter, List.sum_cons]
  rw [h]
  decide

/-- Claim C1 (amended): scenario A yields the remaining sequence
`[10, 10, 6, 6, 6]` and the ideal sequence `[10, 7.5, 5, 2.5, 0]`; in
general `remaining(d) = max(0, total - done(d))` where `done(d)` sums
the story points of items whose `closed_at` date is ≤ `d`'s date. -/
theorem C1_burndown_scenarioA :
    (calculate_burndown_data snapA none).remaining = [10, 10, 6, 6, 6] ∧
    (calculate_burndown_data snapA none).ideal = [10, 15/2, 5, 5/2, 0] ∧
    ∀ (pdata : Snapshot) (pp : Option ℚ),
      (calculate_burndown_data pdata pp).remaining =
        (calculate_burndown_data pdata pp).dates.map
          (fun d => max 0 (pp.getD pdata.total_points - doneAt pdata.items d)) := by
  refine ⟨?_, ?_, fun pdata pp => ?_⟩
  · norm_num [calculate_burndown_data, snapA, burnLoop_pos, burnLoop_neg, doneAt,
      dateOf, sprintDays, fdiv_86400, List.filter, List.sum_cons]
  · norm_num [calculate_burndown_data, snapA, burnLoop_pos, burnLoop_neg, doneAt,
      dateOf, sprintDays, fdiv_86400, List.filter, List.sum_cons]
  · simpa only [calculate_burndown_data] using
      burnLoop_remaining_map pdata.items (pp.getD pdata.total_points)
        (pp.getD pdata.total_points / ((sprintDays pdata.sprint_start pdata.sprint_end : ℤ) : ℚ))
        pdata.sprint_start pdata.sprint_end pdata.sprint_start

/-! ## Claim C6 -/

/-- Claim C6: for `sprint_start ≤ sprint_end` the date series steps
daily from `sprint_start` through `sprint_end` inclusive, its length is
`whole_days(sprint_end - sprint_start) + 1`, the three series have equal
length, and a zero-length sprint yields exactly one data point with
`days` floored to 1 (so the daily rate divides by at least 1). -/
theorem C6_series_shape :
    ∀ (pdata : Snapshot) (pp : Option ℚ),
      pdata.sprint_start ≤ pdata.sprint_end →
      (calculate_burndown_data pdata pp).dates =
        (List.range
          ((Int.fdiv (pdata.sprint_end - pdata.sprint_start) 86400).toNat + 1)).map
          (fun k : ℕ => pdata.sprint_start + 86400 * (k : ℤ)) ∧
      (calculate_burndown_data pdata pp).dates.length =
        (Int.fdiv (pdata.sprint_end - pdata.sprint_start) 86400).toNat + 1 ∧
      (calculate_burndown_data pdata pp).remaining.length =
        (calculate_burndown_data pdata pp).dates.length ∧
      (calculate_burndown_data pdata pp).ideal.length =
        (calculate_burndown_data pdata pp).dates.length ∧
      (pdata.sprint_end = pdata.sprint_start →
        (calculate_burndown_data pdata pp).dates.length = 1 ∧
        sprintDays pdata.sprint_start pdata.sprint_end = 1) := by
  intro pdata pp h
  have hd : (calculate_burndown_data pdata pp).dates =
      (List.range
        ((Int.fdiv (pdata.sprint_end - pdata.sprint_start) 86400).toNat + 1)).map
        (fun k : ℕ => pdata.sprint_start + 86400 * (k : ℤ)) := by
    simp only [calculate_burndown_data, fdiv_86400]
    exact burnLoop_dates_formula _ _ _ _ _ _ h
  have hlen : (calculate_burndown_data pdata pp).dates.length =
      (Int.fdiv (pdata.sprint_end - pdata.sprint_start) 86400).toNat + 1 := by
    rw [hd]
    simp
  refine ⟨hd, hlen, ?_, ?_, fun he => ⟨?_, ?_⟩⟩
  · simp only [calculate_burndown_data]
    rw [burnLoop_remaining_map]
    simp
  · simp only [calculate_burndown_data]
    rw [burnLoop_ideal_map]
    simp
  · rw [hlen, he]
    simp
  · simp only [sprintDays, he, sub_self]
    rfl

/-- Witness for C6 at scenario A's snapshot. -/
theorem C6_series_shape_witness :
    snapA.sprint_start ≤ snapA.sprint_end ∧
    (calculate_burndown_data snapA none).dates.length =
      (Int.fdiv (snapA.sprint_end - snapA.sprint_start) 86400).toNat + 1 :=
  ⟨by decide, (C6_series_shape snapA none (by decide)).2.1⟩

/-! ## Claim C7 -/

/-- Claim C7: when every item has nonnegative story points, the
remaining series is non-increasing along the date sequence and every
remaining value is nonnegative. -/
theorem C7_remaining_monotone :
    ∀ (pdata : Snapshot) (pp : Option ℚ),
      (∀ i ∈ pdata.items, 0 ≤ i.story_points) →
      List.Chain' (fun a b : ℚ => b ≤ a)
        (calculate_burndown_data pdata pp).remaining ∧
      ∀ r ∈ (calculate_burndown_data pdata pp).remaining, 0 ≤ r := by
  intro pdata pp hpts
  constructor
  · simp only [calculate_burndown_data]
    rw [burnLoop_remaining_map, List.chain'_map]
    refine (burnLoop_dates_chain _ _ _ _ _ _).imp ?_
    intro a b hab
    exact max_le_max le_rfl
      (sub_le_sub_left (doneAt_mono pdata.items hpts hab) _)
  · intro r hr
    simp only [calculate_burndown_data] at hr
    rw [burnLoop_remaining_map] at hr
    simp only [List.mem_map] at hr
    obtain ⟨d, _, rfl⟩ := hr
    exact le_max_left 0 _

/-- Witness for C7 at scenario A's snapshot. -/
theorem C7_remaining_monotone_witness :
    (∀ i ∈ snapA.items, 0 ≤ i.story_points) ∧
    (List.Chain' (fun a b : ℚ => b ≤ a)
        (calculate_burndown_data snapA none).remaining ∧
      ∀ r ∈ (calculate_burndown_data snapA none).remaining, 0 ≤ r) :=
  ⟨by decide, C7_remaining_monotone snapA none (by decide)⟩

/-! ## Claim C2 -/

/-- Claim C2 names the intended behavior, but the code does not abort:
on a found project whose only item fails the sprint filter,
`process_project_data` returns a snapshot with an empty item list (a
non-empty and hence truthy dict in Python), so the abort check in `run` —
whose own message blames an empty filter result — never fires. -/
theorem C2_filter_empty_does_not_abort :
    process_project_data cfgB (some rawB) 0 (4 * 86400) =
      some { project_name := some "Proj", items := [], total_points := 0,
             sprint_start := 0, sprint_end := 4 * 86400 } ∧
    runAbortsAfterProcessing cfgB (some rawB) 0 (4 * 86400) = false := by
  decide

/-! ## Lemmas about story-point extraction -/

/-- The value of a regex number match is nonnegative. -/
theorem matchNumberAt_nonneg (cs : List Char) : 0 ≤ matchNumberAt cs := by
  simp only [matchNumberAt, fracVal]
  split
  · split
    · positivity
    · positivity
  · positivity

/-- A number extracted from a label is nonnegative. -/
theorem labelNumber_nonneg (s : String) (x : ℚ) (h : labelNumber s = some x) :
    0 ≤ x := by
  unfold labelNumber at h
  generalize s.data = cs at h
  induction cs with
  | nil => simp [labelNumber.go] at h
  | cons c rest ih =>
    rw [labelNumber.go] at h
    split at h
    · obtain rfl : matchNumberAt (c :: rest) = x := by
        simpa using h
      exact matchNumberAt_nonneg _
    · exact ih h

/-- Any value produced by the named-field pass comes from some field
value's number or parsed text. -/
theorem extractNamedLoop_sources (pfName : String) :
    ∀ (l : List FieldValue) (x : ℚ), extractNamedLoop pfName l = some x →
      ∃ v ∈ l, v.number = some x ∨ parseFloatPy (v.text.getD "") = some x := by
  intro l
  induction l with
  | nil => intro x h; simp [extractNamedLoop] at h
  | cons v rest ih =>
    intro x h
    rw [extractNamedLoop] at h
    split at h
    · split at h
      · rename_i n heq
        injection h with h'
        subst h'
        exact ⟨v, List.mem_cons_self v rest, Or.inl heq⟩
      · split at h
        · split at h
          · rename_i q hq
            injection h with h'
            subst h'
            exact ⟨v, List.mem_cons_self v rest, Or.inr hq⟩
          · obtain ⟨w, hw, hsrc⟩ := ih x h
            exact ⟨w, List.mem_cons_of_mem v hw, hsrc⟩
        · obtain ⟨w, hw, hsrc⟩ := ih x h
          exact ⟨w, List.mem_cons_of_mem v hw, hsrc⟩
    · obtain ⟨w, hw, hsrc⟩ := ih x h
      exact ⟨w, List.mem_cons_of_mem v hw, hsrc⟩

/-- Any value produced by the generic field pass comes from some field
value's number or parsed text. -/
theorem extractAnyLoop_sources :
    ∀ (l : List FieldValue) (x : ℚ), extractAnyLoop l = some x →
      ∃ v ∈ l, v.number = some x ∨ parseFloatPy (v.text.getD "") = some x := by
  intro l
  induction l with
  | nil => intro x h; simp [extractAnyLoop] at h
  | cons v rest ih =>
    intro x h
    rw [extractAnyLoop] at h
    split at h
    · rename_i n heq
      injection h with h'
      subst h'
      exact ⟨v, List.mem_cons_self v rest, Or.inl heq⟩
    · split at h
      · split at h
        · rename_i q hq
          injection h with h'
          subst h'
          exact ⟨v, List.mem_cons_self v rest, Or.inr hq⟩
        · obtain ⟨w, hw, hsrc⟩ := ih x h
          exact ⟨w, List.mem_cons_of_mem v hw, hsrc⟩
      · obtain ⟨w, hw, hsrc⟩ := ih x h
        exact ⟨w, List.mem_cons_of_mem v hw, hsrc⟩

/-- Any value produced by the label pass is some label's number. -/
theorem extractLabelLoop_sources :
    ∀ (l : List String) (x : ℚ), extractLabelLoop l = some x →
      ∃ name ∈ l, labelNumber name = some x := by
  intro l
  induction l with
  | nil => intro x h; simp [extractLabelLoop] at h
  | cons nm rest ih =>
    intro x h
    rw [extractLabelLoop] at h
    split at h
    · rename_i q hq
      injection h with h'
      subst h'
      exact ⟨nm, List.mem_cons_self nm rest, hq⟩
    · obtain ⟨w, hw, hsrc⟩ := ih x h
      exact ⟨w, List.mem_cons_of_mem nm hw, hsrc⟩

/-- When no field value yields a number, the named-field pass fails. -/
theorem extractNamedLoop_eq_none (pfName : String) (l : List FieldValue)
    (h : ∀ v ∈ l, ¬ fvYieldsNumber v) : extractNamedLoop pfName l = none := by
  induction l with
  | nil => simp [extractNamedLoop]
  | cons v rest ih =>
    have hv := h v (List.mem_cons_self v rest)
    have hrest := ih (fun w hw => h w (List.mem_cons_of_mem v hw))
    rw [extractNamedLoop]
    split
    · cases hn : v.number with
      | some n => exact absurd (Or.inl (by simp [hn])) hv
      | none =>
        simp only [hn]
        by_cases ht : pyTruthy v.text = true
        · cases hp : parseFloatPy (v.text.getD "") with
          | some q => exact absurd (Or.inr ⟨ht, by simp [hp]⟩) hv
          | none => simp [ht, hp, hrest]
        · simp [ht, hrest]
    · exact hrest

/-- When no field value yields a number, the generic pass fails. -/
theorem extractAnyLoop_eq_none (l : List FieldValue)
    (h : ∀ v ∈ l, ¬ fvYieldsNumber v) : extractAnyLoop l = none := by
  induction l with
  | nil => simp [extractAnyLoop]
  | cons v rest ih =>
    have hv := h v (List.mem_cons_self v rest)
    have hrest := ih (fun w hw => h w (List.mem_cons_of_mem v hw))
    rw [extractAnyLoop]
    cases hn : v.number with
    | some n => exact absurd (Or.inl (by simp [hn])) hv
    | none =>
      simp only [hn]
      by_cases ht : pyTruthy v.text = true
      · cases hp : parseFloatPy (v.text.getD "") with
        | some q => exact absurd (Or.inr ⟨ht, by simp [hp]⟩) hv
        | none => simp [ht, hp, hrest]
      · simp [ht, hrest]

/-- When no label contains a number, the label pass fails. -/
theorem extractLabelLoop_eq_none (l : List String)
    (h : ∀ name ∈ l, labelNumber name = none) : extractLabelLoop l = none := by
  induction l with
  | nil => simp [extractLabelLoop]
  | cons nm rest ih =>
    rw [extractLabelLoop]
    rw [h nm (List.mem_cons_self nm rest)]
    exact ih (fun w hw => h w (List.mem_cons_of_mem nm hw))

/-! ## Claim C3 -/

/-- Claim C3 fails as stated: a negative numeric field value flows
through `_extract_story_points` unchanged, so the resolved story points
of `itemNeg` are negative. -/
theorem C3_counterexample : _extract_story_points itemNeg none < 0 := by
  decide

/-- Claim C3 (amended): story points resolve to exactly `1.0` when no
field value or label yields a number, and are nonnegative whenever every
numeric field value and float-parsable text of the item is nonnegative
(label-derived values are always nonnegative); a negative field value,
however, is returned as-is. -/
theorem C3_story_points :
    (∀ (item : RawItem) (pf : Option String),
      itemYieldsNoNumber item → _extract_story_points item pf = 1) ∧
    (∀ (item : RawItem) (pf : Option String),
      fieldNumbersNonneg item → 0 ≤ _extract_story_points item pf) := by
  constructor
  · rintro item pf ⟨hfv, hlbl⟩
    have h1 : (if pyTruthy pf
        then extractNamedLoop (pf.getD "") item.fieldValues else none) = none := by
      by_cases hpf : pyTruthy pf = true
      · simp [hpf, extractNamedLoop_eq_none _ _ hfv]
      · simp [hpf]
    simp only [_extract_story_points, h1, extractAnyLoop_eq_none _ hfv,
      extractLabelLoop_eq_none _ hlbl]
  · intro item pf hnn
    have hsrc : ∀ x : ℚ,
        (∃ v ∈ item.fieldValues,
          v.number = some x ∨ parseFloatPy (v.text.getD "") = some x) → 0 ≤ x := by
      rintro x ⟨v, hv, hcase | hcase⟩
      · have hn := (hnn v hv).1
        rw [hcase] at hn
        simpa using hn
      · have hn := (hnn v hv).2
        rw [hcase] at hn
        simpa using hn
    simp only [_extract_story_points]
    split
    · rename_i x hx
      by_cases hpf : pyTruthy pf = true
      · rw [if_pos hpf] at hx
        exact hsrc x (extractNamedLoop_sources _ _ x hx)
      · rw [if_neg hpf] at hx
        exact absurd hx (by simp)
    · split
      · rename_i x hx
        exact hsrc x (extractAnyLoop_sources _ x hx)
      · split
        · rename_i x hx
          obtain ⟨nm, _, hnum⟩ := extractLabelLoop_sources _ x hx
          exact labelNumber_nonneg nm x hnum
        · norm_num

/-- Witness for C3 (amended) at a field-less, numberless item. -/
theorem C3_story_points_witness :
    itemYieldsNoNumber itemPlain ∧ _extract_story_points itemPlain none = 1 :=
  ⟨by decide, C3_story_points.1 itemPlain none (by decide)⟩

/-! ## Claim C4 -/

/-- The named-field pass equals its declarative first-match form. -/
theorem extractNamedLoop_eq_findSome (pfName : String) (l : List FieldValue) :
    extractNamedLoop pfName l = namedFieldPoints pfName l := by
  induction l with
  | nil => simp [extractNamedLoop, namedFieldPoints]
  | cons v rest ih =>
    by_cases hc : (fvFieldName v ≠ "" ∧ pyLower (fvFieldName v) = pyLower pfName)
    · cases hn : v.number with
      | some n =>
        simp [extractNamedLoop, namedFieldPoints, List.findSome?_cons, hc, hn]
      | none =>
        by_cases ht : pyTruthy v.text = true
        · cases hp : parseFloatPy (v.text.getD "") with
          | some q =>
            simp [extractNamedLoop, namedFieldPoints, List.findSome?_cons, hc, hn, ht, hp]
          | none =>
            simp [extractNamedLoop, namedFieldPoints, List.findSome?_cons,
              hc, hn, ht, hp, ih]
        · simp [extractNamedLoop, namedFieldPoints, List.findSome?_cons,
            hc, hn, ht, ih]
    · simp [extractNamedLoop, namedFieldPoints, List.findSome?_cons, hc, ih]

/-- The generic pass equals its declarative first-match form. -/
theorem extractAnyLoop_eq_findSome (l : List FieldValue) :
    extractAnyLoop l = anyFieldPoints l := by
  induction l with
  | nil => simp [extractAnyLoop, anyFieldPoints]
  | cons v rest ih =>
    cases hn : v.number with
    | some n => simp [extractAnyLoop, anyFieldPoints, List.findSome?_cons, hn]
    | none =>
      by_cases ht : pyTruthy v.text = true
      · cases hp : parseFloatPy (v.text.getD "") with
        | some q => simp [extractAnyLoop, anyFieldPoints, List.findSome?_cons, hn, ht, hp]
        | none => simp [extractAnyLoop, anyFieldPoints, List.findSome?_cons, hn, ht, hp, ih]
      · simp [extractAnyLoop, anyFieldPoints, List.findSome?_cons, hn, ht, ih]

/-- The label pass equals its declarative first-match form. -/
theorem extractLabelLoop_eq_findSome (l : List String) :
    extractLabelLoop l = labelPoints l := by
  induction l with
  | nil => simp [extractLabelLoop, labelPoints]
  | cons nm rest ih =>
    cases hn : labelNumber nm with
    | some q => simp [extractLabelLoop, labelPoints, List.findSome?_cons, hn]
    | none => simp [extractLabelLoop, labelPoints, List.findSome?_cons, hn, ih]

/-- Claim C4: story-point resolution follows the order named field,
then first numeric-or-parsable field value, then first label number,
then `1.0`; on scenario D the named "Story Points" field wins over the
unrelated numeric "Priority" field. -/
theorem C4_resolution_order :
    (∀ (item : RawItem) (pf : Option String),
      _extract_story_points item pf = storyPointsResolution item pf) ∧
    _extract_story_points itemD (some "Story Points") = 3 := by
  constructor
  · intro item pf
    simp only [_extract_story_points, storyPointsResolution,
      extractNamedLoop_eq_findSome, extractAnyLoop_eq_findSome,
      extractLabelLoop_eq_findSome]
    cases h1 : (if pyTruthy pf
        then namedFieldPoints (pf.getD "") item.fieldValues else none) with
    | some x => simp [h1, Option.orElse]
    | none =>
      cases h2 : anyFieldPoints item.fieldValues with
      | some x => simp [h1, h2, Option.orElse]
      | none =>
        cases h3 : labelPoints (itemLabelNames item) with
        | some x => simp [h1, h2, h3, Option.orElse]
        | none => simp [h1, h2, h3, Option.orElse]
  · decide

/-! ## Claim C5 -/

/-- The empty string is falsy. -/
theorem pyTruthy_empty : pyTruthy (some "") = false := by decide

/-- With a truthy sprint field, the field-value loop of
`_get_item_sprint` equals its declarative first-match form. -/
theorem sprintFieldLoop_eq_spec (sf : Option String) (l : List FieldValue)
    (hsf : pyTruthy sf = true) :
    sprintFieldLoop sf l = sprintTagSpec (sf.getD "") l := by
  induction l with
  | nil => simp [sprintFieldLoop, sprintTagSpec]
  | cons v rest ih =>
    by_cases hc : (fvFieldName v ≠ "" ∧ pyLower (fvFieldName v) = pyLower (sf.getD ""))
    · cases hname : v.name with
      | some s =>
        by_cases hs : s = ""
        · have hps : pyTruthy (some s) = false := by simp [pyTruthy, hs]
          cases htext : v.text with
          | some t =>
            have hpt : pyTruthy (some t) = (!decide (t = "")) := by simp [pyTruthy]
            by_cases ht : t = ""
            · simp [sprintFieldLoop, sprintTagSpec, List.findSome?_cons, pyTruthy_empty, hsf, hc,
                hname, hs, htext, ht, hps, hpt, ih]
            · simp [sprintFieldLoop, sprintTagSpec, List.findSome?_cons, pyTruthy_empty, hsf, hc,
                hname, hs, htext, ht, hps, hpt]
          | none =>
            simp [sprintFieldLoop, sprintTagSpec, List.findSome?_cons, pyTruthy_empty, hsf, hc,
              hname, hs, htext, hps, pyTruthy, ih]
        · have hps : pyTruthy (some s) = true := by simp [pyTruthy, hs]
          simp [sprintFieldLoop, sprintTagSpec, List.findSome?_cons, pyTruthy_empty, hsf, hc,
            hname, hs, hps]
      | none =>
        have hpn : pyTruthy (none : Option String) = false := by simp [pyTruthy]
        cases htext : v.text with
        | some t =>
          have hpt : pyTruthy (some t) = (!decide (t = "")) := by simp [pyTruthy]
          by_cases ht : t = ""
          · simp [sprintFieldLoop, sprintTagSpec, List.findSome?_cons, pyTruthy_empty, hsf, hc,
              hname, htext, ht, hpn, hpt, ih]
          · simp [sprintFieldLoop, sprintTagSpec, List.findSome?_cons, pyTruthy_empty, hsf, hc,
              hname, htext, ht, hpn, hpt]
        | none =>
          simp [sprintFieldLoop, sprintTagSpec, List.findSome?_cons, pyTruthy_empty, hsf, hc,
            hname, htext, hpn, ih]
    · simp [sprintFieldLoop, sprintTagSpec, List.findSome?_cons, pyTruthy_empty, hsf, hc, ih]

/-- With a falsy sprint field, the field-value loop never matches. -/
theorem sprintFieldLoop_falsy (sf : Option String) (l : List FieldValue)
    (hsf : pyTruthy sf = false) : sprintFieldLoop sf l = none := by
  induction l with
  | nil => simp [sprintFieldLoop]
  | cons v rest ih => simp [sprintFieldLoop, hsf, ih]

/-- Claim C5: with a configured sprint field, an item is included iff
some matching field value provides a sprint tag (its first truthy
single-select name or text), the sprint label is configured, and the
label is a case-insensitive substring of that tag; an item whose field
values lack the named field is excluded — no fallback to labels. -/
theorem C5_field_mode_filter :
    ∀ (item : RawItem) (sl sf : Option String), pyTruthy sf = true →
      ((itemInclude sl sf item = true ↔
        ∃ tag, sprintTagSpec (sf.getD "") item.fieldValues = some tag ∧
          pyTruthy sl = true ∧ strHasSubCI (sl.getD "") tag = true) ∧
      ((∀ v ∈ item.fieldValues,
          ¬(fvFieldName v ≠ "" ∧ pyLower (fvFieldName v) = pyLower (sf.getD ""))) →
        itemInclude sl sf item = false)) := by
  intro item sl sf hsf
  have hloop := sprintFieldLoop_eq_spec sf item.fieldValues hsf
  constructor
  · cases htag : sprintTagSpec (sf.getD "") item.fieldValues with
    | some tag => simp [itemInclude, _get_item_sprint, hloop, htag, hsf]
    | none => simp [itemInclude, _get_item_sprint, hloop, htag, hsf]
  · intro habs
    have hnone : sprintTagSpec (sf.getD "") item.fieldValues = none := by
      rw [sprintTagSpec, List.findSome?_eq_none_iff]
      intro v hv
      rw [if_neg (habs v hv)]
    simp [itemInclude, _get_item_sprint, hloop, hnone, hsf]

/-- Witness for C5: an item carrying the "Sprint" field with value
"Sprint 3" is included under label "Sprint 3". -/
theorem C5_field_mode_filter_witness :
    pyTruthy (some "Sprint") = true ∧
    itemInclude (some "Sprint 3") (some "Sprint") itemS5 = true :=
  ⟨by decide,
    ((C5_field_mode_filter itemS5 (some "Sprint 3") (some "Sprint")
      (by decide)).1).mpr ⟨"Sprint 3", by decide, by decide, by decide⟩⟩

/-! ## Claim C9 -/

/-- Claim C9: without a configured sprint field, an item is included iff
the sprint label case-insensitively equals one of its label names, or
unconditionally when no sprint label is configured; scenario B's
"Sprint 3" item is included, its "Sprint 2" item excluded. -/
theorem C9_label_mode_filter :
    (∀ (item : RawItem) (sl sf : Option String), pyTruthy sf = false →
      (itemInclude sl sf item = true ↔
        (pyTruthy sl = false ∨
          ∃ lbl ∈ itemLabelNames item, pyLower (sl.getD "") = pyLower lbl))) ∧
    itemInclude (some "Sprint 3") none itemB1 = true ∧
    itemInclude (some "Sprint 3") none itemB2 = false := by
  refine ⟨?_, by decide, by decide⟩
  intro item sl sf hsf
  have hloop := sprintFieldLoop_falsy sf item.fieldValues hsf
  cases hsl : pyTruthy sl with
  | true => simp [itemInclude, _get_item_sprint, hloop, hsf, hsl, List.any_eq_true]
  | false => simp [itemInclude, _get_item_sprint, hloop, hsf, hsl]

/-- Witness for C9 at scenario B's included item. -/
theorem C9_label_mode_filter_witness :
    pyTruthy (none : Option String) = false ∧
    (itemInclude (some "Sprint 3") none itemB1 = true ↔
      (pyTruthy (some "Sprint 3") = false ∨
        ∃ lbl ∈ itemLabelNames itemB1,
          pyLower ((some "Sprint 3" : Option String).getD "") = pyLower lbl)) :=
  ⟨by decide, C9_label_mode_filter.1 itemB1 (some "Sprint 3") none (by decide)⟩

/-! ## Claim C8 -/

/-- Claim C8: when parsing either raw timestamp of an included item
fails, both normalized timestamps are `None` (never a partial result),
no exception escapes (the embedding is total), and the item is still
normalized with its story points intact. -/
theorem C8_timestamp_parse_failure :
    ∀ (sl sf pf : Option String) (it : RawItem) (content : Content),
      it.content = some content →
      ((pyTruthy content.createdAt = true ∧
          parseTs (content.createdAt.getD "") = none) ∨
       (pyTruthy content.closedAt = true ∧
          parseTs (content.closedAt.getD "") = none)) →
      parseStamps content.createdAt content.closedAt = (none, none) ∧
      (itemInclude sl sf it = true →
        processItem sl sf pf it =
          some { title := content.title.getD ""
                 story_points := _extract_story_points it pf
                 created_at := none
                 closed_at := none
                 state := content.state }) := by
  intro sl sf pf it content hct hbad
  have hstamps : parseStamps content.createdAt content.closedAt = (none, none) := by
    unfold parseStamps
    rcases hbad with ⟨htr, hp⟩ | ⟨htr, hp⟩
    · simp [htr, hp]
    · cases h1 : (if pyTruthy content.createdAt
          then (parseTs (content.createdAt.getD "")).map some else some none) with
      | none => simp
      | some cd => simp [htr, hp]
  refine ⟨hstamps, fun hinc => ?_⟩
  simp [processItem, hct, hinc, hstamps]

/-- Witness for C8 at the `itemBadTs` fixture. -/
theorem C8_timestamp_parse_failure_witness :
    itemBadTs.content = some contentBad ∧
    (pyTruthy contentBad.closedAt = true ∧
      parseTs (contentBad.closedAt.getD "") = none) ∧
    itemInclude (some "Sprint 3") none itemBadTs = true ∧
    processItem (some "Sprint 3") none none itemBadTs =
      some { title := contentBad.title.getD ""
             story_points := _extract_story_points itemBadTs none
             created_at := none
             closed_at := none
             state := contentBad.state } := by
  have hbad : (pyTruthy contentBad.closedAt = true ∧
      parseTs (contentBad.closedAt.getD "") = none) := by
    constructor
    · decide
    · decide
  exact ⟨rfl, hbad,
    by decide,
    (C8_timestamp_parse_failure (some "Sprint 3") none none itemBadTs contentBad
      rfl (Or.inr hbad)).2 (by decide)⟩

/-! ## Claim C10 -/

/-- If `s` does not start with `nd`, stripping `nd` fails. -/
theorem stripSub?_none :
    ∀ (nd s : List Char), startsWithL nd s = false → stripSub? nd s = none := by
  intro nd
  induction nd with
  | nil => intro s h; simp [startsWithL] at h
  | cons n ns ih =>
    intro s h
    cases s with
    | nil => rfl
    | cons c cs =>
      rw [startsWithL] at h
      rw [stripSub?]
      by_cases hc : n = c
      · rw [if_pos hc]
        refine ih cs ?_
        simpa [hc] using h
      · rw [if_neg hc]

/-- A string without any occurrence of the needle is left unchanged by
the replace loop, whatever the fuel. -/
theorem pyReplaceGo_no_occur (repl : List Char) (n : Char) (ns : List Char) :
    ∀ (fuel : ℕ) (s : List Char), hasSubL (n :: ns) s = false →
      pyReplaceGo repl n ns fuel s = s := by
  intro fuel
  induction fuel with
  | zero => intro s _; rfl
  | succ fuel ih =>
    intro s h
    cases s with
    | nil => rfl
    | cons c rest =>
      rw [hasSubL, Bool.or_eq_false_iff] at h
      rw [pyReplaceGo, stripSub?_none _ _ h.1]
      exact congrArg _ (ih rest h.2)

/-- Claim C10 fails as stated: for `save_path = "chart.jpg"` the HTML
document is written at `"chart.jpg"` itself, not at the path with the
extension replaced by `.html`. -/
theorem C10_counterexample :
    plotlyHtmlPath "chart.jpg" ≠ extensionReplacedHtml "chart.jpg" := by
  decide

/-- Claim C10 (amended): the interactive HTML document is written at
`save_path` with every occurrence of the substring `".png"` replaced by
`".html"` — so a `.png` path gets its extension replaced, but a path
without `".png"` is left unchanged — while the static image is written
at `save_path` itself. -/
theorem C10_save_paths :
    (∀ p : String, hasSubL ".png".data p.data = false → plotlyHtmlPath p = p) ∧
    plotlyHtmlPath "chart.png" = "chart.html" ∧
    plotlyHtmlPath "a.png.png" = "a.html.html" ∧
    ∀ p : String, plotlyImagePath p = p := by
  refine ⟨?_, by decide, by decide, fun p => rfl⟩
  intro p h
  obtain ⟨cs⟩ := p
  exact congrArg String.mk
    (pyReplaceGo_no_occur ".html".data '.' ['p', 'n', 'g'] cs.length cs h)

/-- Witness for C10 (amended): a path without `".png"` is unchanged. -/
theorem C10_save_paths_witness :
    hasSubL ".png".data "chart.jpg".data = false ∧
    plotlyHtmlPath "chart.jpg" = "chart.jpg" :=
  ⟨by decide, C10_save_paths.1 "chart.jpg" (by decide)⟩

end Chart
